import Mathlib

/-!
# Verification of the offline reverse-geocoding engine (`src/geocode.ts`)

Shallow embedding of the TypeScript reverse-geocoding module into Lean 4.

Modelling conventions:
* JS numbers that hold WGS84 coordinates and distances are modelled as `ℚ`.
  The haversine metric uses transcendental functions (`sin`, `cos`, `atan2`,
  `sqrt`), which are not executable; since every claim under verification is
  about the control flow of the matcher and not about the metric itself, the
  distance function is an explicit parameter `dist : ℚ → ℚ → ℚ → ℚ → ℚ` of the
  matcher, instantiated with a concrete computable function in witnesses.
  With a `ℚ`-valued metric there is no `NaN`/`Infinity`, so the JS comparison
  `d < minDist` with `minDist` initialised to `Infinity` always succeeds on the
  first candidate; the fold below encodes exactly that.
* `parseFloat` / `parseInt` are modelled by their ECMAScript leading-prefix
  grammars over decimal literals; `none` stands for `NaN`.  The `Infinity`
  literal (accepted by `parseFloat`) is not modelled: no gazetteer field and no
  claim involves it.
* The JS `Map` is modelled as an insertion-ordered association list with
  `Map.set` overwrite semantics; `Map.get` returning `undefined` is `none`.
* Grid keys are the strings `"${latCell},${lonCell}"` in the source; since
  that string form is injective in the pair `(latCell, lonCell)`, keys are
  modelled as `ℤ × ℤ`.
* `jsTrim`/`jsToLower`/`jsToUpper`/`jsSplit` model the JS string operations
  on the ASCII range, which covers every field the claims touch; they work on
  the character list so that they evaluate inside the kernel.
-/

namespace Geocode

/-- Take the longest prefix of decimal digits. -/
def takeDigits : List Char → List Char × List Char
  | [] => ([], [])
  | c :: cs =>
    if c.isDigit then
      let p := takeDigits cs
      (c :: p.1, p.2)
    else ([], c :: cs)

/-- Numeric value of a digit string (most significant first). -/
def digitsToNat (ds : List Char) : ℕ :=
  ds.foldl (fun a c => a * 10 + (c.toNat - 48)) 0

/-- Strip one optional leading sign, returning the sign as `1` or `-1`. -/
def takeSign : List Char → ℤ × List Char
  | '+' :: cs => (1, cs)
  | '-' :: cs => (-1, cs)
  | cs => (1, cs)

/-- Exponent part of a decimal literal: `e`/`E`, optional sign, digits.
If the exponent part is malformed it contributes `0` (JS keeps the mantissa
and ignores the invalid exponent suffix, e.g. `parseFloat "5e" = 5`). -/
def takeExponent : List Char → ℤ
  | 'e' :: cs =>
    let s := takeSign cs
    let d := takeDigits s.2
    if d.1 = [] then 0 else s.1 * (digitsToNat d.1 : ℤ)
  | 'E' :: cs =>
    let s := takeSign cs
    let d := takeDigits s.2
    if d.1 = [] then 0 else s.1 * (digitsToNat d.1 : ℤ)
  | _ => 0

/-- ECMAScript `parseFloat` on an already-trimmed string: parse the longest
prefix that is a signed decimal literal; `none` models `NaN` (no digits at
all).  The value `sign · (intDigits.fracDigits) · 10^exp` is assembled as a
single `mkRat` over integer arithmetic so that it evaluates inside the
kernel. -/
def jsParseFloat (str : String) : Option ℚ :=
  let s := takeSign str.data
  let ip := takeDigits s.2
  let fp := match ip.2 with
    | '.' :: cs => takeDigits cs
    | _ => ([], ip.2)
  if ip.1 = [] ∧ fp.1 = [] then none
  else
    let e : ℤ := takeExponent fp.2
    let mantNum : ℤ :=
      s.1 * ((digitsToNat ip.1 : ℤ) * 10 ^ fp.1.length + (digitsToNat fp.1 : ℤ))
    if 0 ≤ e then some (mkRat (mantNum * 10 ^ e.toNat) (10 ^ fp.1.length))
    else some (mkRat mantNum (10 ^ fp.1.length * 10 ^ (-e).toNat))

/-- ECMAScript `parseInt(str, 10)` on an already-trimmed string: optional
sign then the longest digit prefix; `none` models `NaN`. -/
def jsParseInt (str : String) : Option ℤ :=
  let s := takeSign str.data
  let d := takeDigits s.2
  if d.1 = [] then none else some (s.1 * (digitsToNat d.1 : ℤ))

/-- Whitespace class trimmed by JS `String.prototype.trim` (ASCII part). -/
def isJsWhitespace (c : Char) : Bool :=
  c = ' ' ∨ c = '\t' ∨ c = '\n' ∨ c = '\r' ∨ c.toNat = 11 ∨ c.toNat = 12

/-- Model of JS `trim()`: drop leading and trailing whitespace. -/
def jsTrim (s : String) : String :=
  ⟨((s.data.dropWhile isJsWhitespace).reverse.dropWhile isJsWhitespace).reverse⟩

/-- Split a character list at every occurrence of `sep` (single-character JS
`split`); always returns at least one (possibly empty) piece. -/
def splitChars (sep : Char) : List Char → List (List Char)
  | [] => [[]]
  | c :: cs =>
    match splitChars sep cs with
    | [] => [[c]]
    | l :: ls => if c = sep then [] :: l :: ls else (c :: l) :: ls

/-- Model of JS `split` with a one-character separator. -/
def jsSplit (sep : Char) (s : String) : List String :=
  (splitChars sep s.data).map fun cs => ⟨cs⟩

/-- Model of JS `toLowerCase()` on the ASCII range. -/
def jsToLower (s : String) : String :=
  ⟨s.data.map Char.toLower⟩

/-- Model of JS `toUpperCase()` on the ASCII range. -/
def jsToUpper (s : String) : String :=
  ⟨s.data.map Char.toUpper⟩

/-- Exact rational division computed through `mkRat` (kernel-evaluable,
unlike the `Rat` field operations); shown equal to `·/·` in
`qDiv_eq_div`. -/
def qDiv (a b : ℚ) : ℚ :=
  mkRat (a.num * b.den * (if b.num < 0 then -1 else 1)) (a.den * b.num.natAbs)

/-- Model of `interface CityData` from `geocode.ts`. -/
structure CityData where
  name : String
  lat : ℚ
  lon : ℚ
  countryCode : String
  population : ℕ
  featureCode : String
  deriving DecidableEq, Repr

/-- Model of `parseCityLine`: split a gazetteer line on tabs; reject lines with fewer
than 15 fields, an empty name / latitude / longitude / country-code field, or
a non-numeric coordinate.  Field indices: 1 name, 4 lat, 5 lon, 7 feature
code, 8 country code, 14 population (blank or `NaN` → 0, clamped to ≥ 0). -/
def parseCityLine (line : String) : Option CityData :=
  let parts := jsSplit '\t' line
  if parts.length < 15 then none
  else
    let name := jsTrim (parts.getD 1 "")
    let latStr := jsTrim (parts.getD 4 "")
    let lonStr := jsTrim (parts.getD 5 "")
    let featureCode := jsToUpper (jsTrim (parts.getD 7 ""))
    let countryCode := jsToUpper (jsTrim (parts.getD 8 ""))
    let populationStr := jsTrim (parts.getD 14 "")
    let population : ℕ :=
      (if populationStr = "" then 0 else (jsParseInt populationStr).getD 0).toNat
    if name = "" ∨ latStr = "" ∨ lonStr = "" ∨ countryCode = "" then none
    else
      match jsParseFloat latStr, jsParseFloat lonStr with
      | some lat, some lon =>
          some { name := name, lat := lat, lon := lon, countryCode := countryCode,
                 population := population, featureCode := featureCode }
      | _, _ => none

/-- Constant `GRID_CELL_SIZE = 1.0`. -/
def GRID_CELL_SIZE : ℚ := 1

/-- Constant `MAX_RU_MATCH_KM = 80`. -/
def MAX_RU_MATCH_KM : ℚ := 80

/-- Constant `RU_BBOX`: approximate bounding box of the priority country. -/
structure BBox where
  latMin : ℚ
  latMax : ℚ
  lonMin : ℚ
  lonMax : ℚ

def RU_BBOX : BBox := { latMin := 41, latMax := 82, lonMin := 19, lonMax := 180 }

/-- Model of `getGridKey`: the cell key `(Math.floor(lat / cellSize), Math.floor(lon /
cellSize))` (the source renders it as the string `"lat,lon"`, injective in the
pair). -/
def getGridKey (lat lon : ℚ) : ℤ × ℤ :=
  (⌊qDiv lat GRID_CELL_SIZE⌋, ⌊qDiv lon GRID_CELL_SIZE⌋)

/-- Model of `getNeighborGridKeys`: the 3×3 block of cell keys centred on the query
point's own cell, in the source's loop order (`dLat` outer, `dLon` inner,
each from −1 to 1). -/
def getNeighborGridKeys (lat lon : ℚ) : List (ℤ × ℤ) :=
  let latCell := ⌊qDiv lat GRID_CELL_SIZE⌋
  let lonCell := ⌊qDiv lon GRID_CELL_SIZE⌋
  ([-1, 0, 1] : List ℤ).flatMap fun dLat =>
    ([-1, 0, 1] : List ℤ).map fun dLon => (latCell + dLat, lonCell + dLon)

/-- Model of `inRussiaBbox`. -/
def inRussiaBbox (lat lon : ℚ) : Bool :=
  RU_BBOX.latMin ≤ lat ∧ lat ≤ RU_BBOX.latMax ∧
    RU_BBOX.lonMin ≤ lon ∧ lon ≤ RU_BBOX.lonMax

/-! ## Grid index and JS `Map` model -/

/-- One insertion into a grid bucket: `if (!grid.has(key)) grid.set(key, []);
grid.get(key)!.push(p)`.  The association list keeps JS `Map` insertion
order; pushing appends at the end of the bucket. -/
def gridInsert {α : Type} (g : List ((ℤ × ℤ) × List α)) (key : ℤ × ℤ) (p : α) :
    List ((ℤ × ℤ) × List α) :=
  match g with
  | [] => [(key, [p])]
  | (k, l) :: rest =>
    if k = key then (k, l ++ [p]) :: rest else (k, l) :: gridInsert rest key p

/-- Lookup `grid.get(key)`: first entry with the key; `none` models
`undefined`. -/
def gridGet {α : Type} : List ((ℤ × ℤ) × List α) → ℤ × ℤ → Option (List α)
  | [], _ => none
  | (k, l) :: rest, key => if k = key then some l else gridGet rest key

/-- The single insertion pass that both loaders run while filling their grid
`Map` (`key` extracts `getGridKey(p.lat, p.lon)`). -/
def buildGrid {α : Type} (key : α → ℤ × ℤ) (pts : List α) :
    List ((ℤ × ℤ) × List α) :=
  pts.foldl (fun g p => gridInsert g (key p) p) []

/-- Candidate collection: walk the 3×3 neighbor keys, appending every bucket
that exists (`if (list) candidates.push(...list)`). -/
def collectCandidates {α : Type} (g : List ((ℤ × ℤ) × List α)) (lat lon : ℚ) :
    List α :=
  (getNeighborGridKeys lat lon).foldl
    (fun acc k =>
      match gridGet g k with
      | some l => acc ++ l
      | none => acc) []

/-- The linear minimum scan shared by both strategies: `minDist` starts at
`Infinity`, each candidate with `d < minDist` replaces the running best.
`d` is the per-candidate distance; with a `ℚ`-valued metric the first
candidate always beats `Infinity`, hence the `none → some` step. -/
def scanNearest {α : Type} (d : α → ℚ) (l : List α) : Option (α × ℚ) :=
  l.foldl
    (fun acc c =>
      match acc with
      | none => some (c, d c)
      | some (b, m) => if d c < m then some (c, d c) else some (b, m)) none

/-- Insertion `Map.set` on a string-keyed JS `Map`: overwrite in place, append new
keys at the end (insertion order preserved). -/
def mapSet (m : List (String × String)) (k v : String) : List (String × String) :=
  match m with
  | [] => [(k, v)]
  | (k', v') :: rest =>
    if k' = k then (k, v) :: rest else (k', v') :: mapSet rest k v

/-- Lookup `Map.get`: first entry with the key; `none` models `undefined`. -/
def lookupMap : List (String × String) → String → Option String
  | [], _ => none
  | (k', v) :: rest, k => if k' = k then some v else lookupMap rest k

/-! ## Dataset records and index structures -/

/-- Model of `interface RussianCityPoint`. -/
structure RussianCityPoint where
  name : String
  lat : ℚ
  lon : ℚ
  deriving DecidableEq, Repr

/-- Raw entry of `russian-cities_with_english.json` as the loaders type it:
`{ name: string; english_name?: string; coords?: { lat: string; lon: string } }`. -/
structure RuRawEntry where
  name : String
  english_name : Option String
  coords : Option (String × String)
  deriving DecidableEq, Repr

/-- Model of `interface CityGridIndex`. -/
structure CityGridIndex where
  grid : List ((ℤ × ℤ) × List CityData)
  cities : List CityData
  isReady : Bool
  deriving Repr

/-- Model of `interface RussianGeoIndex`. -/
structure RussianGeoIndex where
  grid : List ((ℤ × ℤ) × List RussianCityPoint)
  cities : List RussianCityPoint
  isReady : Bool
  deriving Repr

/-- The record-building loop of `loadRussianGeo`: skip entries with a blank
native name, missing coordinates, or non-numeric coordinates; trim the name. -/
def parseRuEntry (c : RuRawEntry) : Option RussianCityPoint :=
  match c.coords with
  | none => none
  | some co =>
    if jsTrim c.name = "" then none
    else
      match jsParseFloat co.1, jsParseFloat co.2 with
      | some lat, some lon => some { name := jsTrim c.name, lat := lat, lon := lon }
      | _, _ => none

/-- Index construction in `loadRussianGeo` (records plus their grid). -/
def buildRussianGeoIndex (raw : List RuRawEntry) : RussianGeoIndex :=
  let cities := raw.filterMap parseRuEntry
  { grid := buildGrid (fun p => getGridKey p.lat p.lon) cities,
    cities := cities, isReady := true }

/-- Map construction of `loadRussianNamesMap`: insert
`english_name.trim().toLowerCase() → name` for every entry, except entries
whose `name` is the sentinel `"Донецк"` or whose romanized name is missing or
blank. -/
def buildNamesMap (raw : List RuRawEntry) : List (String × String) :=
  raw.foldl
    (fun m c =>
      if c.name = "Донецк" ∨ jsTrim (c.english_name.getD "") = "" then m
      else mapSet m (jsToLower (jsTrim (c.english_name.getD ""))) c.name) []

/-- The per-line loop of `loadCitiesAsync`: split the file on newlines, skip
blank lines, keep every line `parseCityLine` accepts, and index the kept
records by grid cell. -/
def buildCityIndex (content : String) : CityGridIndex :=
  let lines := jsSplit '\n' content
  let cities := lines.foldl
    (fun acc line =>
      let trimmed := jsTrim line
      if trimmed = "" then acc
      else
        match parseCityLine trimmed with
        | some c => acc ++ [c]
        | none => acc) []
  { grid := buildGrid (fun c => getGridKey c.lat c.lon) cities,
    cities := cities, isReady := true }

/-! ## Matcher and formatter (the pure part of `reverseGeocodeDisplay`) -/

/-- Model of `findNearestRussianCity`: 3×3 candidates, full-scan fallback when empty,
linear minimum, rejected when the minimum distance exceeds
`MAX_RU_MATCH_KM`.  `dist` abstracts `haversineDistance`. -/
def findNearestRussianCity (dist : ℚ → ℚ → ℚ → ℚ → ℚ) (ruIndex : RussianGeoIndex)
    (lat lon : ℚ) : Option (String × ℚ) :=
  let candidates := collectCandidates ruIndex.grid lat lon
  let toCheck := if candidates.length > 0 then candidates else ruIndex.cities
  match scanNearest (fun c => dist lat lon c.lat c.lon) toCheck with
  | none => none
  | some (nearest, minDist) =>
    if minDist > MAX_RU_MATCH_KM then none else some (nearest.name, minDist)

/-- The global strategy's nearest-match selection in `reverseGeocodeDisplay`
(lines 253–269): 3×3 candidates from the global grid, full-scan fallback,
plain linear minimum — no distance cutoff is applied to the result. -/
def globalNearest (dist : ℚ → ℚ → ℚ → ℚ → ℚ) (index : CityGridIndex)
    (lat lon : ℚ) : Option (CityData × ℚ) :=
  let candidates := collectCandidates index.grid lat lon
  let citiesToCheck := if candidates.length > 0 then candidates else index.cities
  scanNearest (fun c => dist lat lon c.lat c.lon) citiesToCheck

/-- The final formatting cascade of `reverseGeocodeDisplay` (lines 281–284),
with JS string truthiness: the empty string is falsy. -/
def formatDisplay (displayCity countryName : String) : Option String :=
  if displayCity ≠ "" ∧ countryName ≠ "" then
    some ("г. " ++ displayCity ++ ", " ++ countryName)
  else if displayCity ≠ "" then some ("г. " ++ displayCity)
  else if countryName ≠ "" then some countryName
  else none

/-- Localization and formatting of a global match (lines 271–284).
`table` abstracts the static `CODE_TO_COUNTRY_NAME` record
(`table code = none` models an absent key, so `?? code` falls back to the raw
code).  The translation is substituted only when the looked-up value is
truthy (`if (ru)`), i.e. present and non-empty. -/
def globalDisplay (dist : ℚ → ℚ → ℚ → ℚ → ℚ) (table : String → Option String)
    (index : CityGridIndex) (namesMap : Option (List (String × String)))
    (lat lon : ℚ) : Option String :=
  if index.cities.length = 0 then none
  else
    match globalNearest dist index lat lon with
    | none => none
    | some (nearestCity, _) =>
      let countryName := (table nearestCity.countryCode).getD nearestCity.countryCode
      let displayCity :=
        match namesMap with
        | some m =>
          if nearestCity.countryCode = "RU" then
            match lookupMap m (jsToLower nearestCity.name) with
            | some ru => if ru = "" then nearestCity.name else ru
            | none => nearestCity.name
          else nearestCity.name
        | none => nearestCity.name
      formatDisplay displayCity countryName

/-- The full query pipeline of `reverseGeocodeDisplay` after the load
(lines 245–284): priority-region strategy first when the point is inside the
bounding box and the regional index exists, otherwise the global strategy. -/
def reverseGeocodeQuery (dist : ℚ → ℚ → ℚ → ℚ → ℚ) (table : String → Option String)
    (ruIndex : Option RussianGeoIndex) (index : CityGridIndex)
    (namesMap : Option (List (String × String))) (lat lon : ℚ) : Option String :=
  let ruResult : Option String :=
    if inRussiaBbox lat lon then
      match ruIndex with
      | some ri => (findNearestRussianCity dist ri lat lon).map
          (fun ru => "г. " ++ ru.1 ++ ", Россия")
      | none => none
    else none
  match ruResult with
  | some s => some s
  | none => globalDisplay dist table index namesMap lat lon

/-! ## Stateful load machinery

The module-level mutable slots of `geocode.ts` (`cityIndex`,
`russianGeoIndex`, `loadPromise`, `russianNamesMap`) become an explicit
`EngineState`; the data files become a static `FileSystem` where `none`
models a file that is missing or unreadable (or whose JSON fails to parse).
Calls are modelled sequentially: each call runs to completion, so the cached
`loadPromise` is represented by its settled outcome.  Every loader also
returns the number of file reads (`fs.readFile` calls) it performed, so that
retry behaviour is observable. -/

/-- Static snapshot of the data directory.  The priority-region JSON is kept
in parsed form (read and parse failures are merged into `none`); the global
gazetteer is raw text. -/
structure FileSystem where
  ruJson : Option (List RuRawEntry)
  citiesTxt : Option String

/-- Errors a load can settle with. -/
inductive LoadError where
  /-- Reading or parsing `russian-cities_with_english.json` failed. -/
  | ruFileError : LoadError
  /-- Reading `data_geo/cities5000.txt` failed. -/
  | citiesFileError : LoadError
  /-- The non-null assertion `cityIndex!` hit `null` (unreachable in runs
  started from `initialState`). -/
  | nullAssertion : LoadError
  deriving DecidableEq, Repr

/-- The module-level mutable slots of `geocode.ts`. -/
structure EngineState where
  cityIndex : Option CityGridIndex
  russianGeoIndex : Option RussianGeoIndex
  loadPromise : Option (Except LoadError Unit)
  russianNamesMap : Option (List (String × String))

/-- All slots `null`, as at module initialisation. -/
def initialState : EngineState :=
  { cityIndex := none, russianGeoIndex := none, loadPromise := none,
    russianNamesMap := none }

/-- Cache-miss path of `loadRussianGeo`: one file read; on success publish
the regional index. -/
def loadRussianGeoFresh (fs : FileSystem) (s : EngineState) :
    Except LoadError RussianGeoIndex × EngineState × ℕ :=
  match fs.ruJson with
  | none => (.error .ruFileError, s, 1)
  | some raw =>
    let ri := buildRussianGeoIndex raw
    (.ok ri, { s with russianGeoIndex := some ri }, 1)

/-- Model of `loadRussianGeo`: cached-index fast path, else one file read;
on success publish the regional index.  Returns (result, state, reads). -/
def loadRussianGeoS (fs : FileSystem) (s : EngineState) :
    Except LoadError RussianGeoIndex × EngineState × ℕ :=
  match s.russianGeoIndex with
  | some ri =>
    if ri.isReady then (.ok ri, s, 0)
    else loadRussianGeoFresh fs s
  | none => loadRussianGeoFresh fs s

/-- Model of `loadRussianNamesMap`: cached-map fast path, else one file read;
on success publish the translation map. -/
def loadRussianNamesMapS (fs : FileSystem) (s : EngineState) :
    Except LoadError (List (String × String)) × EngineState × ℕ :=
  match s.russianNamesMap with
  | some m => (.ok m, s, 0)
  | none =>
    match fs.ruJson with
    | none => (.error .ruFileError, s, 1)
    | some raw =>
      let m := buildNamesMap raw
      (.ok m, { s with russianNamesMap := some m }, 1)

/-- Body of the promise created by `loadCitiesAsync` (lines 178–200), run to
completion: regional load, gazetteer read and parse, translation map, then
publish `cityIndex`.  The settled outcome is recorded in `loadPromise`; on
failure `cityIndex` is left untouched (never marked ready). -/
def doLoad (fs : FileSystem) (s : EngineState) :
    Except LoadError CityGridIndex × EngineState × ℕ :=
  match loadRussianGeoS fs s with
  | (.error e, s1, n1) => (.error e, { s1 with loadPromise := some (.error e) }, n1)
  | (.ok _, s1, n1) =>
    match fs.citiesTxt with
    | none =>
      (.error .citiesFileError,
        { s1 with loadPromise := some (.error .citiesFileError) }, n1 + 1)
    | some content =>
      match loadRussianNamesMapS fs s1 with
      | (.error e, s2, n2) =>
        (.error e, { s2 with loadPromise := some (.error e) }, n1 + 1 + n2)
      | (.ok _, s2, n2) =>
        (.ok (buildCityIndex content),
          { s2 with
              cityIndex := some (buildCityIndex content)
              loadPromise := some (.ok ()) },
          n1 + 1 + n2)

/-- Await branch of `loadCitiesAsync` (lines 173–176 plus the final
`await loadPromise; return cityIndex!`): if a settled promise is cached,
re-deliver its outcome without touching the files; otherwise start a load. -/
def awaitOrLoad (fs : FileSystem) (s : EngineState) :
    Except LoadError CityGridIndex × EngineState × ℕ :=
  match s.loadPromise with
  | some (.error e) => (.error e, s, 0)
  | some (.ok _) =>
    match s.cityIndex with
    | some i => (.ok i, s, 0)
    | none => (.error .nullAssertion, s, 0)
  | none => doLoad fs s

/-- Model of `loadCitiesAsync`: ready-cache fast path, then the shared
promise, then a fresh load. -/
def loadCitiesAsyncS (fs : FileSystem) (s : EngineState) :
    Except LoadError CityGridIndex × EngineState × ℕ :=
  match s.cityIndex with
  | some i => if i.isReady then (.ok i, s, 0) else awaitOrLoad fs s
  | none => awaitOrLoad fs s

/-- Model of the exported `reverseGeocodeDisplay`: await the load (errors
propagate to the caller), then run the pure query pipeline against the
module state. -/
def reverseGeocodeDisplayS (dist : ℚ → ℚ → ℚ → ℚ → ℚ)
    (table : String → Option String) (fs : FileSystem) (s : EngineState)
    (lat lon : ℚ) : Except LoadError (Option String) × EngineState × ℕ :=
  match loadCitiesAsyncS fs s with
  | (.error e, s1, n) => (.error e, s1, n)
  | (.ok _, s1, n) =>
    match s1.cityIndex with
    | none => (.error .nullAssertion, s1, n)
    | some idx =>
      (.ok (reverseGeocodeQuery dist table s1.russianGeoIndex idx
          s1.russianNamesMap lat lon), s1, n)

/-! ## Operating modes of the consolidated loader

The repository ships a second, near-duplicate geocoding variant restricted to
"large cities only"; that variant's source is not under `src/`, so its filter
is modelled from the spec and applied on top of the `src/` parsing pipeline. -/

/-- Operating mode of the global gazetteer loader. -/
inductive GlobalSizeFilter where
  | noFilter : GlobalSizeFilter
  | largeCitiesOnly : GlobalSizeFilter
  deriving DecidableEq, Repr

/-- Modelled from the spec: the "large cities only" record filter of the
second geocoding variant (absent from `src/`): a record survives only if its
population exceeds the threshold OR its feature code is in the configured
major-settlement set. -/
def isLargeCity (threshold : ℕ) (majorCodes : List String) (c : CityData) : Bool :=
  threshold < c.population ∨ c.featureCode ∈ majorCodes

/-- Record predicate selected by the operating mode. -/
def sizeFilterPred (mode : GlobalSizeFilter) (threshold : ℕ)
    (majorCodes : List String) (c : CityData) : Bool :=
  match mode with
  | .noFilter => true
  | .largeCitiesOnly => isLargeCity threshold majorCodes c

/-- Modelled from the spec: `loadGlobalGazetteer` of the consolidated design —
parse the gazetteer with the `src/` pipeline, optionally keep only large
cities depending on the operating mode, and build the grid index over the
surviving records only. -/
def loadGlobalGazetteer (mode : GlobalSizeFilter) (threshold : ℕ)
    (majorCodes : List String) (content : String) : CityGridIndex :=
  let parsed := (buildCityIndex content).cities
  let surviving := parsed.filter (sizeFilterPred mode threshold majorCodes)
  { grid := buildGrid (fun c => getGridKey c.lat c.lon) surviving,
    cities := surviving, isReady := true }

/-! ## Concrete instantiations used by witnesses -/

/-- Concrete computable stand-in metric used to instantiate the abstract
distance parameter in witnesses (L1 distance in degrees, assembled with
integer arithmetic and `mkRat` so it evaluates inside the kernel; the
matcher theorems hold for every metric). -/
def demoDist (lat1 lon1 lat2 lon2 : ℚ) : ℚ :=
  mkRat
    (((lat2.num * lat1.den - lat1.num * lat2.den).natAbs * (lon1.den * lon2.den) +
      (lon2.num * lon1.den - lon1.num * lon2.den).natAbs * (lat1.den * lat2.den) : ℕ) : ℤ)
    ((lat1.den * lat2.den) * (lon1.den * lon2.den))

/-- Country table with no entries, for witnesses exercising the raw-code
fallback. -/
def emptyTable : String → Option String := fun _ => none

/-- One well-formed gazetteer line (Moscow, country RU, feature PPLC). -/
def moscowLine : String :=
  "524901\tMoscow\tMoscow\talt\t55.75222\t37.61556\tP\tPPLC\tRU\t\t48\t\t\t\t10381222\t\t144\tEurope/Moscow\t2022-10-03"

/-- One well-formed gazetteer line (Paris, country FR, feature PPLC). -/
def parisLine : String :=
  "2988507\tParis\tParis\talt\t48.85341\t2.3488\tP\tPPLC\tFR\t\t11\t75\t\t\t2138551\t\t42\tEurope/Paris\t2022-08-22"

/-- Sample priority-dataset content: one translatable entry, the sentinel,
and one entry without a romanized name. -/
def sampleRuRaw : List RuRawEntry :=
  [{ name := "Москва", english_name := some "Moscow",
     coords := some ("55.75222", "37.61556") },
   { name := "Донецк", english_name := some "Donetsk",
     coords := some ("48.0159", "37.8028") },
   { name := "Тверь", english_name := none,
     coords := some ("56.8587", "35.9176") }]

/-- File system where both data files are present. -/
def fsGood : FileSystem :=
  { ruJson := some sampleRuRaw, citiesTxt := some (moscowLine ++ "\n" ++ parisLine) }

/-- File system where the global gazetteer file is missing. -/
def fsMissingCities : FileSystem :=
  { ruJson := some sampleRuRaw, citiesTxt := none }

/-! ## Helper lemmas -/

theorem qDiv_eq_div (a b : ℚ) : qDiv a b = a / b := by
  unfold qDiv
  by_cases hb : b.num = 0
  · have hb0 : b = 0 := Rat.zero_iff_num_zero.mpr hb
    simp [hb, hb0]
  · have hbe : (b.num : ℚ) ≠ 0 := Int.cast_ne_zero.mpr hb
    have hbne : b ≠ 0 := fun h => hb (by rw [h]; rfl)
    have hden : ((a.den * b.num.natAbs : ℕ) : ℚ) ≠ 0 := by
      have h1 : a.den ≠ 0 := a.den_nz
      have h2 : b.num.natAbs ≠ 0 := Int.natAbs_ne_zero.mpr hb
      exact_mod_cast Nat.mul_ne_zero h1 h2
    have hade : ((a.den : ℕ) : ℚ) ≠ 0 := by
      exact_mod_cast a.den_nz
    have hbde : ((b.den : ℕ) : ℚ) ≠ 0 := by
      exact_mod_cast b.den_nz
    have hnum : (a.num : ℚ) = a * (a.den : ℚ) :=
      (div_eq_iff hade).mp (Rat.num_div_den a)
    have hbnum : (b.num : ℚ) = b * (b.den : ℚ) :=
      (div_eq_iff hbde).mp (Rat.num_div_den b)
    by_cases hlt : b.num < 0
    · have habs : |(b.num : ℚ)| = -(b.num : ℚ) :=
        abs_of_neg (by exact_mod_cast hlt)
      rw [if_pos hlt, Rat.mkRat_eq_divInt, Rat.divInt_eq_div]
      push_cast
      rw [habs]
      have hd2 : (a.den : ℚ) * -(b.num : ℚ) ≠ 0 :=
        mul_ne_zero hade (neg_ne_zero.mpr hbe)
      rw [div_eq_div_iff hd2 hbne, hnum, hbnum]
      ring
    · have habs : |(b.num : ℚ)| = (b.num : ℚ) :=
        abs_of_nonneg (by exact_mod_cast le_of_not_lt hlt)
      rw [if_neg hlt, Rat.mkRat_eq_divInt, Rat.divInt_eq_div]
      push_cast
      rw [habs]
      have hd2 : (a.den : ℚ) * (b.num : ℚ) ≠ 0 := mul_ne_zero hade hbe
      rw [div_eq_div_iff hd2 hbne, hnum, hbnum]
      ring

/-- Bucket-append helper for describing a grid after insertions. -/
def mergeBucket {α : Type} (o : Option (List α)) (l : List α) : Option (List α) :=
  match o, l with
  | o, [] => o
  | none, l => some l
  | some b, l => some (b ++ l)

theorem gridGet_nil {α : Type} (k : ℤ × ℤ) : gridGet ([] : List ((ℤ × ℤ) × List α)) k = none := rfl

theorem gridGet_gridInsert {α : Type} (g : List ((ℤ × ℤ) × List α)) (k : ℤ × ℤ)
    (p : α) (k' : ℤ × ℤ) :
    gridGet (gridInsert g k p) k' =
      if k = k' then some ((gridGet g k').getD [] ++ [p]) else gridGet g k' := by
  induction g with
  | nil =>
    by_cases h : k = k'
    · simp [gridInsert, gridGet, h]
    · simp [gridInsert, gridGet, h]
  | cons e rest ih =>
    obtain ⟨ke, le⟩ := e
    by_cases hek : ke = k
    · subst hek
      by_cases h : ke = k'
      · subst h; simp [gridInsert, gridGet]
      · simp [gridInsert, gridGet, h]
    · by_cases h : ke = k'
      · subst h
        simp [gridInsert, gridGet, hek, Ne.symm hek]
      · simp [gridInsert, gridGet, hek, h, ih]

theorem mergeBucket_push {α : Type} (o : Option (List α)) (p : α) (l : List α) :
    mergeBucket (some (o.getD [] ++ [p])) l = mergeBucket o (p :: l) := by
  cases o <;> cases l <;> simp [mergeBucket]

theorem gridGet_foldl {α : Type} (key : α → ℤ × ℤ) (pts : List α)
    (g : List ((ℤ × ℤ) × List α)) (k : ℤ × ℤ) :
    gridGet (pts.foldl (fun g p => gridInsert g (key p) p) g) k =
      mergeBucket (gridGet g k) (pts.filter fun p => key p = k) := by
  induction pts generalizing g with
  | nil => cases h : gridGet g k <;> simp [mergeBucket, h]
  | cons p ps ih =>
    simp only [List.foldl_cons, List.filter_cons]
    rw [ih]
    by_cases h : key p = k
    · simp only [h, decide_True, if_true]
      rw [gridGet_gridInsert, if_pos rfl, mergeBucket_push]
    · have hd : (decide (key p = k)) = false := decide_eq_false h
      simp only [hd, Bool.false_eq_true, if_false]
      rw [gridGet_gridInsert, if_neg h]

theorem gridGet_buildGrid {α : Type} (key : α → ℤ × ℤ) (pts : List α) (k : ℤ × ℤ) :
    gridGet (buildGrid key pts) k =
      mergeBucket none (pts.filter fun p => key p = k) := by
  rw [buildGrid, gridGet_foldl, gridGet_nil]

theorem collectCandidates_eq_flatMap {α : Type} (g : List ((ℤ × ℤ) × List α))
    (lat lon : ℚ) :
    collectCandidates g lat lon =
      (getNeighborGridKeys lat lon).flatMap fun k => (gridGet g k).getD [] := by
  have aux : ∀ (keys : List (ℤ × ℤ)) (acc : List α),
      keys.foldl
        (fun acc k =>
          match gridGet g k with
          | some l => acc ++ l
          | none => acc) acc =
        acc ++ keys.flatMap (fun k => (gridGet g k).getD []) := by
    intro keys
    induction keys with
    | nil => simp
    | cons k ks ih =>
      intro acc
      simp only [List.foldl_cons, List.flatMap_cons, ih]
      cases h : gridGet g k <;> simp [h]
  exact aux _ _

theorem mem_of_mem_mergeBucket_none {α : Type} (l : List α) (c : α)
    (h : c ∈ (mergeBucket none l).getD []) : c ∈ l := by
  cases l with
  | nil => simp [mergeBucket] at h
  | cons x xs => simpa [mergeBucket] using h

theorem mem_of_mem_collectCandidates {α : Type} (key : α → ℤ × ℤ) (pts : List α)
    (g : List ((ℤ × ℤ) × List α)) (hg : g = buildGrid key pts)
    (lat lon : ℚ) (c : α)
    (h : c ∈ collectCandidates g lat lon) : c ∈ pts := by
  subst hg
  rw [collectCandidates_eq_flatMap] at h
  obtain ⟨k, -, hc⟩ := List.mem_flatMap.mp h
  rw [gridGet_buildGrid] at hc
  exact (List.mem_filter.mp (mem_of_mem_mergeBucket_none _ _ hc)).1

theorem scanNearest_isSome {α : Type} (d : α → ℚ) (l : List α) (h : l ≠ []) :
    (scanNearest d l).isSome := by
  have aux : ∀ (l' : List α) (acc : α × ℚ),
      (l'.foldl
        (fun acc c =>
          match acc with
          | none => some (c, d c)
          | some (b, m) => if d c < m then some (c, d c) else some (b, m))
        (some acc)).isSome := by
    intro l'
    induction l' with
    | nil => intro acc; rfl
    | cons c cs ih =>
      intro acc
      simp only [List.foldl_cons]
      obtain ⟨b, m⟩ := acc
      by_cases hc : d c < m <;> simp [hc, ih]
  match l with
  | c :: cs =>
    simp only [scanNearest, List.foldl_cons]
    exact aux cs (c, d c)

theorem scanNearest_mem {α : Type} (d : α → ℚ) (l : List α) (c : α) (m : ℚ)
    (h : scanNearest d l = some (c, m)) : c ∈ l ∧ m = d c := by
  have aux : ∀ (l' : List α) (acc : Option (α × ℚ)),
      l'.foldl
        (fun acc c =>
          match acc with
          | none => some (c, d c)
          | some (b, m) => if d c < m then some (c, d c) else some (b, m))
        acc = some (c, m) →
      acc = some (c, m) ∨ (c ∈ l' ∧ m = d c) := by
    intro l'
    induction l' with
    | nil => intro acc h'; exact Or.inl h'
    | cons x xs ih =>
      intro acc h'
      simp only [List.foldl_cons] at h'
      rcases ih _ h' with hstep | hmem
      · match acc with
        | none =>
          simp only [Option.some.injEq, Prod.mk.injEq] at hstep
          exact Or.inr ⟨by rw [← hstep.1]; exact List.mem_cons_self x xs,
            by rw [← hstep.2, hstep.1]⟩
        | some (b, mb) =>
          simp only at hstep
          by_cases hc : d x < mb
          · rw [if_pos hc] at hstep
            simp only [Option.some.injEq, Prod.mk.injEq] at hstep
            exact Or.inr ⟨by rw [← hstep.1]; exact List.mem_cons_self x xs,
              by rw [← hstep.2, hstep.1]⟩
          · rw [if_neg hc] at hstep
            exact Or.inl hstep
      · exact Or.inr ⟨List.mem_cons_of_mem _ hmem.1, hmem.2⟩
  rcases aux l none h with h' | h'
  · exact absurd h' (by simp)
  · exact h'

theorem lookupMap_mapSet (m : List (String × String)) (k v : String) (k' : String) :
    lookupMap (mapSet m k v) k' = if k = k' then some v else lookupMap m k' := by
  induction m with
  | nil =>
    by_cases h : k = k'
    · simp [mapSet, lookupMap, h]
    · simp [mapSet, lookupMap, h]
  | cons e rest ih =>
    obtain ⟨ke, ve⟩ := e
    by_cases hek : ke = k
    · subst hek
      by_cases h : ke = k'
      · subst h; simp [mapSet, lookupMap]
      · simp [mapSet, lookupMap, h]
    · by_cases h : ke = k'
      · subst h
        simp [mapSet, lookupMap, hek, Ne.symm hek]
      · simp [mapSet, lookupMap, hek, h, ih]

theorem buildCityIndex_cities_eq (content : String) :
    (buildCityIndex content).cities =
      (jsSplit '\n' content).filterMap
        (fun l => if jsTrim l = "" then none else parseCityLine (jsTrim l)) := by
  have aux : ∀ (lines : List String) (acc : List CityData),
      lines.foldl
        (fun acc line =>
          let trimmed := jsTrim line
          if trimmed = "" then acc
          else
            match parseCityLine trimmed with
            | some c => acc ++ [c]
            | none => acc) acc =
        acc ++ lines.filterMap
          (fun l => if jsTrim l = "" then none else parseCityLine (jsTrim l)) := by
    intro lines
    induction lines with
    | nil => simp
    | cons x xs ih =>
      intro acc
      simp only [List.foldl_cons, List.filterMap_cons]
      by_cases hx : jsTrim x = ""
      · simp only [hx, if_true, if_pos rfl]
        exact ih acc
      · simp only [if_neg hx]
        cases hp : parseCityLine (jsTrim x) with
        | none => simp [hp, ih acc]
        | some c => simp [hp, ih (acc ++ [c])]
  simpa using aux (jsSplit '\n' content) []

theorem mem_buildCityIndex (content : String) (c : CityData)
    (h : c ∈ (buildCityIndex content).cities) :
    ∃ line, parseCityLine line = some c := by
  rw [buildCityIndex_cities_eq] at h
  obtain ⟨l, -, hl⟩ := List.mem_filterMap.mp h
  by_cases ht : jsTrim l = ""
  · rw [if_pos ht] at hl; exact absurd hl (by simp)
  · rw [if_neg ht] at hl; exact ⟨jsTrim l, hl⟩

theorem parseCityLine_name_country (line : String) (c : CityData)
    (h : parseCityLine line = some c) : c.name ≠ "" ∧ c.countryCode ≠ "" := by
  unfold parseCityLine at h
  by_cases hlen : (jsSplit '\t' line).length < 15
  · rw [if_pos hlen] at h; exact absurd h (by simp)
  · rw [if_neg hlen] at h
    simp only at h
    set parts := jsSplit '\t' line with hparts
    by_cases hguard : jsTrim (parts.getD 1 "") = "" ∨ (jsTrim (parts.getD 4 "") = "" ∨
        jsTrim (parts.getD 5 "") = "" ∨ jsToUpper (jsTrim (parts.getD 8 "")) = "")
    · rw [if_pos (by tauto)] at h; exact absurd h (by simp)
    · rw [if_neg (by tauto)] at h
      push_neg at hguard
      cases hlat : jsParseFloat (jsTrim (parts.getD 4 "")) with
      | none => rw [hlat] at h; exact absurd h (by simp)
      | some lat =>
        cases hlon : jsParseFloat (jsTrim (parts.getD 5 "")) with
        | none => rw [hlat, hlon] at h; exact absurd h (by simp)
        | some lon =>
          rw [hlat, hlon] at h
          simp only [Option.some.injEq] at h
          rw [← h]
          exact ⟨hguard.1, hguard.2.2.2⟩

theorem parseCityLine_eq_none_of_malformed (line : String)
    (h : (jsSplit '\t' line).length < 15 ∨
      jsParseFloat (jsTrim ((jsSplit '\t' line).getD 4 "")) = none ∨
      jsParseFloat (jsTrim ((jsSplit '\t' line).getD 5 "")) = none) :
    parseCityLine line = none := by
  unfold parseCityLine
  by_cases hlen : (jsSplit '\t' line).length < 15
  · rw [if_pos hlen]
  · rw [if_neg hlen]
    simp only
    rcases h with hlen' | hlat | hlon
    · exact absurd hlen' hlen
    · by_cases hguard : jsTrim ((jsSplit '\t' line).getD 1 "") = "" ∨
          jsTrim ((jsSplit '\t' line).getD 4 "") = "" ∨
          jsTrim ((jsSplit '\t' line).getD 5 "") = "" ∨
          jsToUpper (jsTrim ((jsSplit '\t' line).getD 8 "")) = ""
      · rw [if_pos hguard]
      · rw [if_neg hguard, hlat]
    · by_cases hguard : jsTrim ((jsSplit '\t' line).getD 1 "") = "" ∨
          jsTrim ((jsSplit '\t' line).getD 4 "") = "" ∨
          jsTrim ((jsSplit '\t' line).getD 5 "") = "" ∨
          jsToUpper (jsTrim ((jsSplit '\t' line).getD 8 "")) = ""
      · rw [if_pos hguard]
      · rw [if_neg hguard, hlon]
        cases jsParseFloat (jsTrim ((jsSplit '\t' line).getD 4 "")) <;> rfl

theorem lookupMap_foldl_names_sound (raw : List RuRawEntry)
    (m : List (String × String)) (k v : String)
    (h : lookupMap
        (raw.foldl
          (fun m c =>
            if c.name = "Донецк" ∨ jsTrim (c.english_name.getD "") = "" then m
            else mapSet m (jsToLower (jsTrim (c.english_name.getD ""))) c.name) m)
        k = some v) :
    lookupMap m k = some v ∨
      ∃ c ∈ raw, c.name ≠ "Донецк" ∧ jsTrim (c.english_name.getD "") ≠ "" ∧
        jsToLower (jsTrim (c.english_name.getD "")) = k ∧ v = c.name := by
  induction raw generalizing m with
  | nil => exact Or.inl h
  | cons c cs ih =>
    simp only [List.foldl_cons] at h
    rcases ih _ h with hstep | ⟨c', hc', hq⟩
    · by_cases hskip : c.name = "Донецк" ∨ jsTrim (c.english_name.getD "") = ""
      · rw [if_pos hskip] at hstep
        exact Or.inl hstep
      · rw [if_neg hskip] at hstep
        rw [lookupMap_mapSet] at hstep
        push_neg at hskip
        by_cases hk : jsToLower (jsTrim (c.english_name.getD "")) = k
        · rw [if_pos hk] at hstep
          exact Or.inr ⟨c, List.mem_cons_self c cs,
            hskip.1, hskip.2, hk, (Option.some.injEq .. ▸ hstep).symm⟩
        · rw [if_neg hk] at hstep
          exact Or.inl hstep
    · exact Or.inr ⟨c', List.mem_cons_of_mem c hc', hq⟩

theorem lookupMap_foldl_names_preserved (raw : List RuRawEntry)
    (m : List (String × String)) (k : String)
    (h : (lookupMap m k).isSome) :
    (lookupMap
      (raw.foldl
        (fun m c =>
          if c.name = "Донецк" ∨ jsTrim (c.english_name.getD "") = "" then m
          else mapSet m (jsToLower (jsTrim (c.english_name.getD ""))) c.name) m)
      k).isSome := by
  induction raw generalizing m with
  | nil => exact h
  | cons c cs ih =>
    simp only [List.foldl_cons]
    apply ih
    by_cases hskip : c.name = "Донецк" ∨ jsTrim (c.english_name.getD "") = ""
    · rwa [if_pos hskip]
    · rw [if_neg hskip, lookupMap_mapSet]
      by_cases hk : jsToLower (jsTrim (c.english_name.getD "")) = k
      · rw [if_pos hk]; rfl
      · rwa [if_neg hk]

theorem lookupMap_foldl_names_complete (raw : List RuRawEntry)
    (m : List (String × String)) (c : RuRawEntry)
    (hmem : c ∈ raw) (hname : c.name ≠ "Донецк")
    (hen : jsTrim (c.english_name.getD "") ≠ "") :
    (lookupMap
      (raw.foldl
        (fun m c =>
          if c.name = "Донецк" ∨ jsTrim (c.english_name.getD "") = "" then m
          else mapSet m (jsToLower (jsTrim (c.english_name.getD ""))) c.name) m)
      (jsToLower (jsTrim (c.english_name.getD "")))).isSome := by
  induction raw generalizing m with
  | nil => exact absurd hmem (by simp)
  | cons x xs ih =>
    simp only [List.foldl_cons]
    rcases List.mem_cons.mp hmem with hx | hxs
    · subst hx
      apply lookupMap_foldl_names_preserved
      rw [if_neg (by tauto), lookupMap_mapSet, if_pos rfl]
      rfl
    · exact ih _ hxs

theorem buildCityIndex_isReady (content : String) :
    (buildCityIndex content).isReady = true := rfl

theorem loadRussianGeoS_cityIndex (fs : FileSystem) (s : EngineState) :
    (loadRussianGeoS fs s).2.1.cityIndex = s.cityIndex := by
  unfold loadRussianGeoS loadRussianGeoFresh
  cases hgi : s.russianGeoIndex with
  | some ri =>
    cases hr : ri.isReady <;> cases hj : fs.ruJson <;> simp [hr, hj]
  | none => cases hj : fs.ruJson <;> simp [hj]

theorem loadRussianNamesMapS_cityIndex (fs : FileSystem) (s : EngineState) :
    (loadRussianNamesMapS fs s).2.1.cityIndex = s.cityIndex := by
  unfold loadRussianNamesMapS
  cases hm : s.russianNamesMap with
  | some m => simp
  | none => cases hj : fs.ruJson <;> simp

theorem doLoad_error (fs : FileSystem) (s : EngineState) (e : LoadError)
    (s' : EngineState) (n : ℕ) (h : doLoad fs s = (.error e, s', n)) :
    s'.loadPromise = some (.error e) ∧ s'.cityIndex = s.cityIndex := by
  unfold doLoad at h
  rcases hr : loadRussianGeoS fs s with ⟨r1, s1, n1⟩
  rw [hr] at h
  have hs1 : s1.cityIndex = s.cityIndex := by
    have := loadRussianGeoS_cityIndex fs s
    rw [hr] at this
    exact this
  cases r1 with
  | error e1 =>
    simp only [Prod.mk.injEq, Except.error.injEq] at h
    obtain ⟨he, hs, -⟩ := h
    rw [← hs, ← he]
    exact ⟨rfl, hs1⟩
  | ok ri =>
    cases hct : fs.citiesTxt with
    | none =>
      rw [hct] at h
      simp only [Prod.mk.injEq, Except.error.injEq] at h
      obtain ⟨he, hs, -⟩ := h
      rw [← hs, ← he]
      exact ⟨rfl, hs1⟩
    | some content =>
      rw [hct] at h
      simp only at h
      rcases hn : loadRussianNamesMapS fs s1 with ⟨r2, s2, n2⟩
      rw [hn] at h
      have hs2 : s2.cityIndex = s1.cityIndex := by
        have := loadRussianNamesMapS_cityIndex fs s1
        rw [hn] at this
        exact this
      cases r2 with
      | error e2 =>
        simp only [Prod.mk.injEq, Except.error.injEq] at h
        obtain ⟨he, hs, -⟩ := h
        rw [← hs, ← he]
        exact ⟨rfl, hs2.trans hs1⟩
      | ok m => simp at h

theorem doLoad_ok (fs : FileSystem) (s : EngineState) (idx : CityGridIndex)
    (s' : EngineState) (n : ℕ) (h : doLoad fs s = (.ok idx, s', n)) :
    s'.loadPromise = some (.ok ()) ∧ s'.cityIndex = some idx ∧ idx.isReady = true := by
  unfold doLoad at h
  rcases hr : loadRussianGeoS fs s with ⟨r1, s1, n1⟩
  rw [hr] at h
  cases r1 with
  | error e1 => simp at h
  | ok ri =>
    cases hct : fs.citiesTxt with
    | none => rw [hct] at h; simp at h
    | some content =>
      rw [hct] at h
      simp only at h
      rcases hn : loadRussianNamesMapS fs s1 with ⟨r2, s2, n2⟩
      rw [hn] at h
      cases r2 with
      | error e2 => simp at h
      | ok m =>
        simp only [Prod.mk.injEq, Except.ok.injEq] at h
        obtain ⟨hidx, hs, -⟩ := h
        rw [← hs, ← hidx]
        exact ⟨rfl, rfl, buildCityIndex_isReady content⟩

theorem loadCitiesAsyncS_stable (fs : FileSystem) (s : EngineState) :
    loadCitiesAsyncS fs (loadCitiesAsyncS fs s).2.1 =
      ((loadCitiesAsyncS fs s).1, (loadCitiesAsyncS fs s).2.1, 0) := by
  have hAwait : ∀ (hnotready : s.cityIndex = none ∨
      ∃ i, s.cityIndex = some i ∧ i.isReady = false),
      loadCitiesAsyncS fs (awaitOrLoad fs s).2.1 =
        ((awaitOrLoad fs s).1, (awaitOrLoad fs s).2.1, 0) := by
    intro hnotready
    cases hlp : s.loadPromise with
    | some r0 =>
      cases r0 with
      | error e =>
        have ha : awaitOrLoad fs s = (.error e, s, 0) := by
          unfold awaitOrLoad; rw [hlp]
        rw [ha]
        rcases hnotready with hci | ⟨i, hci, hready⟩
        · simp [loadCitiesAsyncS, hci, awaitOrLoad, hlp]
        · simp [loadCitiesAsyncS, hci, hready, awaitOrLoad, hlp]
      | ok u =>
        cases hci : s.cityIndex with
        | some i =>
          have hready : i.isReady = false := by
            rcases hnotready with hci' | ⟨i', hci', hready'⟩
            · rw [hci] at hci'; exact absurd hci' (by simp)
            · rw [hci] at hci'
              cases hci'
              exact hready'
          have ha : awaitOrLoad fs s = (.ok i, s, 0) := by
            unfold awaitOrLoad; rw [hlp, hci]
          rw [ha]
          simp [loadCitiesAsyncS, hci, hready, awaitOrLoad, hlp]
        | none =>
          have ha : awaitOrLoad fs s = (.error .nullAssertion, s, 0) := by
            unfold awaitOrLoad; rw [hlp, hci]
          rw [ha]
          simp [loadCitiesAsyncS, hci, awaitOrLoad, hlp]
    | none =>
      have ha : awaitOrLoad fs s = doLoad fs s := by
        unfold awaitOrLoad; rw [hlp]
      rw [ha]
      rcases hdl : doLoad fs s with ⟨r, s1, n⟩
      cases r with
      | error e =>
        obtain ⟨hp1, hc1⟩ := doLoad_error fs s e s1 n hdl
        rcases hnotready with hci | ⟨i, hci, hready⟩
        · rw [hci] at hc1
          simp [loadCitiesAsyncS, hc1, awaitOrLoad, hp1]
        · rw [hci] at hc1
          simp [loadCitiesAsyncS, hc1, hready, awaitOrLoad, hp1]
      | ok idx =>
        obtain ⟨hp1, hc1, hready1⟩ := doLoad_ok fs s idx s1 n hdl
        simp [loadCitiesAsyncS, hc1, hready1]
  cases hci : s.cityIndex with
  | some i =>
    cases hready : i.isReady with
    | true => simp [loadCitiesAsyncS, hci, hready]
    | false =>
      have h1 : loadCitiesAsyncS fs s = awaitOrLoad fs s := by
        unfold loadCitiesAsyncS; rw [hci]; simp [hready]
      rw [h1]
      exact hAwait (Or.inr ⟨i, hci, hready⟩)
  | none =>
    have h1 : loadCitiesAsyncS fs s = awaitOrLoad fs s := by
      unfold loadCitiesAsyncS; rw [hci]
    rw [h1]
    exact hAwait (Or.inl hci)

theorem globalNearest_mem_cities (dist : ℚ → ℚ → ℚ → ℚ → ℚ)
    (index : CityGridIndex)
    (hg : index.grid =
      buildGrid (fun c => getGridKey c.lat c.lon) index.cities)
    (lat lon : ℚ) (c : CityData) (d : ℚ)
    (h : globalNearest dist index lat lon = some (c, d)) :
    c ∈ index.cities := by
  simp only [globalNearest] at h
  by_cases hc : (collectCandidates index.grid lat lon).length > 0
  · rw [if_pos hc] at h
    exact mem_of_mem_collectCandidates (fun c => getGridKey c.lat c.lon)
      index.cities index.grid hg lat lon c (scanNearest_mem _ _ _ _ h).1
  · rw [if_neg hc] at h
    exact (scanNearest_mem _ _ _ _ h).1

/-! ## Claim theorems -/

/-- C2: if the 3×3-cell candidate set from the global grid index is empty,
the matcher scans every indexed global record instead, so whenever the
global dataset is non-empty the global strategy returns a match (never
none); no radius cutoff is applied (the returned match is the raw scan
minimum whatever its distance). -/
theorem C2_global_full_scan_fallback (dist : ℚ → ℚ → ℚ → ℚ → ℚ)
    (index : CityGridIndex) (lat lon : ℚ) (h : index.cities ≠ []) :
    (collectCandidates index.grid lat lon = [] →
      globalNearest dist index lat lon =
        scanNearest (fun c => dist lat lon c.lat c.lon) index.cities) ∧
    (∃ r, globalNearest dist index lat lon = some r) := by
  constructor
  · intro hc
    simp only [globalNearest]
    rw [hc]
    simp
  · simp only [globalNearest]
    by_cases hc : (collectCandidates index.grid lat lon).length > 0
    · rw [if_pos hc]
      exact Option.isSome_iff_exists.mp
        (scanNearest_isSome _ _ (List.length_pos_iff_ne_nil.mp hc))
    · rw [if_neg hc]
      exact Option.isSome_iff_exists.mp (scanNearest_isSome _ _ h)

/-- Closed instance of C2 at a concrete one-record index with an empty
candidate set (query far from the record's cell). -/
theorem C2_global_full_scan_fallback_witness :
    (buildCityIndex moscowLine).cities ≠ [] ∧
    (∃ r, globalNearest demoDist (buildCityIndex moscowLine) 0 0 = some r) :=
  ⟨by decide,
   (C2_global_full_scan_fallback demoDist (buildCityIndex moscowLine) 0 0
     (by decide)).2⟩

/-- C3: the priority-region strategy runs only inside `RU_BBOX`; an accepted
regional match is within `MAX_RU_MATCH_KM`; a confident match is returned
immediately (for every global index, i.e. without consulting it); a miss
falls through to the global strategy. -/
theorem C3_priority_region_strategy (dist : ℚ → ℚ → ℚ → ℚ → ℚ)
    (table : String → Option String) (ri : RussianGeoIndex)
    (ruIndex : Option RussianGeoIndex) (index : CityGridIndex)
    (namesMap : Option (List (String × String))) (lat lon : ℚ) :
    (inRussiaBbox lat lon = false →
      reverseGeocodeQuery dist table ruIndex index namesMap lat lon =
        globalDisplay dist table index namesMap lat lon) ∧
    (∀ nm d, findNearestRussianCity dist ri lat lon = some (nm, d) →
      d ≤ MAX_RU_MATCH_KM) ∧
    (∀ nm d, inRussiaBbox lat lon = true →
      findNearestRussianCity dist ri lat lon = some (nm, d) →
      reverseGeocodeQuery dist table (some ri) index namesMap lat lon =
        some ("г. " ++ nm ++ ", Россия")) ∧
    (inRussiaBbox lat lon = true →
      findNearestRussianCity dist ri lat lon = none →
      reverseGeocodeQuery dist table (some ri) index namesMap lat lon =
        globalDisplay dist table index namesMap lat lon) := by
  refine ⟨?_, ?_, ?_, ?_⟩
  · intro hbox
    unfold reverseGeocodeQuery
    rw [hbox]
    simp
  · intro nm d h
    simp only [findNearestRussianCity] at h
    cases hscan : scanNearest (fun c => dist lat lon c.lat c.lon)
        (if (collectCandidates ri.grid lat lon).length > 0 then
          collectCandidates ri.grid lat lon
        else ri.cities) with
    | none => rw [hscan] at h; exact absurd h (by simp)
    | some p =>
      obtain ⟨nearest, minDist⟩ := p
      rw [hscan] at h
      simp only at h
      by_cases hcut : minDist > MAX_RU_MATCH_KM
      · rw [if_pos hcut] at h; exact absurd h (by simp)
      · rw [if_neg hcut] at h
        simp only [Option.some.injEq, Prod.mk.injEq] at h
        rw [← h.2]
        exact le_of_not_lt hcut
  · intro nm d hbox h
    simp [reverseGeocodeQuery, hbox, h]
  · intro hbox h
    simp [reverseGeocodeQuery, hbox, h]

/-- Closed instance of C3: a point inside the bounding box whose nearest
regional city is within range returns the regional label, bypassing the
global index. -/
theorem C3_priority_region_strategy_witness :
    reverseGeocodeQuery demoDist emptyTable
        (some (buildRussianGeoIndex sampleRuRaw))
        (buildCityIndex parisLine) none (mkRat 5575 100) (mkRat 3761 100) =
      some "г. Москва, Россия" :=
  (C3_priority_region_strategy demoDist emptyTable
      (buildRussianGeoIndex sampleRuRaw) none (buildCityIndex parisLine)
      none (mkRat 5575 100) (mkRat 3761 100)).2.2.1 "Москва"
      (demoDist (mkRat 5575 100) (mkRat 3761 100)
        (mkRat 5575222 100000) (mkRat 3761556 100000))
      (by decide) (by decide)

/-- C5: a gazetteer line with fewer than 15 tab-delimited fields or a
non-numeric coordinate yields no record; the loader keeps exactly the lines
the parser accepts; and a load with readable files never fails, whatever the
gazetteer content. -/
theorem C5_malformed_lines_skipped :
    (∀ line, ((jsSplit '\t' line).length < 15 ∨
        jsParseFloat (jsTrim ((jsSplit '\t' line).getD 4 "")) = none ∨
        jsParseFloat (jsTrim ((jsSplit '\t' line).getD 5 "")) = none) →
      parseCityLine line = none) ∧
    (∀ content, (buildCityIndex content).cities =
      (jsSplit '\n' content).filterMap
        (fun l => if jsTrim l = "" then none else parseCityLine (jsTrim l))) ∧
    (∀ raw content,
      (loadCitiesAsyncS { ruJson := some raw, citiesTxt := some content }
          initialState).1 = .ok (buildCityIndex content)) := by
  refine ⟨parseCityLine_eq_none_of_malformed, buildCityIndex_cities_eq, ?_⟩
  intro raw content
  rfl

/-- Closed instance of C5: a two-field line parses to nothing, and loading a
file consisting of that line plus one valid record yields exactly one
record and a successful load. -/
theorem C5_malformed_lines_skipped_witness :
    parseCityLine "too\tshort" = none ∧
    (buildCityIndex ("too\tshort\n" ++ moscowLine)).cities =
      (jsSplit '\n' ("too\tshort\n" ++ moscowLine)).filterMap
        (fun l => if jsTrim l = "" then none else parseCityLine (jsTrim l)) ∧
    (loadCitiesAsyncS
        { ruJson := some [], citiesTxt := some ("too\tshort\n" ++ moscowLine) }
        initialState).1 =
      .ok (buildCityIndex ("too\tshort\n" ++ moscowLine)) :=
  ⟨C5_malformed_lines_skipped.1 "too\tshort" (Or.inl (by decide)),
   C5_malformed_lines_skipped.2.1 ("too\tshort\n" ++ moscowLine),
   C5_malformed_lines_skipped.2.2 [] ("too\tshort\n" ++ moscowLine)⟩

/-- C6: the grid cell key of a point is the pair of floors of its
coordinates with cell size fixed at 1.0, and candidate lookup collects
exactly the buckets of the 3×3 block of cell keys around the query point's
own cell. -/
theorem C6_grid_key_and_neighbors (lat lon : ℚ) :
    GRID_CELL_SIZE = 1 ∧
    getGridKey lat lon = (⌊lat / 1⌋, ⌊lon / 1⌋) ∧
    getNeighborGridKeys lat lon =
      [(⌊lat / 1⌋ + -1, ⌊lon / 1⌋ + -1), (⌊lat / 1⌋ + -1, ⌊lon / 1⌋),
       (⌊lat / 1⌋ + -1, ⌊lon / 1⌋ + 1),
       (⌊lat / 1⌋, ⌊lon / 1⌋ + -1), (⌊lat / 1⌋, ⌊lon / 1⌋),
       (⌊lat / 1⌋, ⌊lon / 1⌋ + 1),
       (⌊lat / 1⌋ + 1, ⌊lon / 1⌋ + -1), (⌊lat / 1⌋ + 1, ⌊lon / 1⌋),
       (⌊lat / 1⌋ + 1, ⌊lon / 1⌋ + 1)] ∧
    (∀ g : List ((ℤ × ℤ) × List CityData),
      collectCandidates g lat lon =
        (getNeighborGridKeys lat lon).flatMap fun k => (gridGet g k).getD []) := by
  refine ⟨rfl, ?_, ?_, fun g => collectCandidates_eq_flatMap g lat lon⟩
  · unfold getGridKey
    rw [qDiv_eq_div, qDiv_eq_div]
    rfl
  · simp [getNeighborGridKeys, GRID_CELL_SIZE, qDiv_eq_div]

/-- C4: depending on operating mode, the consolidated global loader keeps
all parsed records or only large cities (population over the threshold OR
feature code in the major-settlement set), and builds its grid index over
exactly the surviving records. -/
theorem C4_size_filter_modes (threshold : ℕ) (majorCodes : List String)
    (content : String) :
    (∀ c, isLargeCity threshold majorCodes c = true ↔
      (threshold < c.population ∨ c.featureCode ∈ majorCodes)) ∧
    ((loadGlobalGazetteer .noFilter threshold majorCodes content).cities =
      (buildCityIndex content).cities) ∧
    ((loadGlobalGazetteer .largeCitiesOnly threshold majorCodes content).cities =
      (buildCityIndex content).cities.filter (isLargeCity threshold majorCodes)) ∧
    (∀ mode k,
      gridGet (loadGlobalGazetteer mode threshold majorCodes content).grid k =
        mergeBucket none
          ((loadGlobalGazetteer mode threshold majorCodes content).cities.filter
            fun (c : CityData) => getGridKey c.lat c.lon = k)) := by
  refine ⟨?_, ?_, ?_, ?_⟩
  · intro c
    simp [isLargeCity]
  · simp [loadGlobalGazetteer, sizeFilterPred]
  · rfl
  · intro mode k
    exact gridGet_buildGrid (fun (c : CityData) => getGridKey c.lat c.lon) _ k

/-- Closed instance of C4: the large-cities mode over a two-record file
keeps exactly the records passing the population/feature-code filter. -/
theorem C4_size_filter_modes_witness :
    (loadGlobalGazetteer .largeCitiesOnly 5000000 ["PPLC"]
        (moscowLine ++ "\n" ++ parisLine)).cities =
      (buildCityIndex (moscowLine ++ "\n" ++ parisLine)).cities.filter
        (isLargeCity 5000000 ["PPLC"]) :=
  (C4_size_filter_modes 5000000 ["PPLC"] (moscowLine ++ "\n" ++ parisLine)).2.2.1

/-- C7: for a global match with country code RU, the display name is the
case-insensitive translation-map entry when one (non-empty) exists, else the
gazetteer spelling; the country part is the table entry, falling back to the
raw code when the code is unmapped. -/
theorem C7_localization_of_global_match (dist : ℚ → ℚ → ℚ → ℚ → ℚ)
    (table : String → Option String) (index : CityGridIndex)
    (m : List (String × String)) (lat lon : ℚ) (city : CityData) (d : ℚ)
    (hne : ¬index.cities.length = 0)
    (hmatch : globalNearest dist index lat lon = some (city, d))
    (hcode : city.countryCode = "RU")
    (hval : ∀ v, lookupMap m (jsToLower city.name) = some v → v ≠ "") :
    (globalDisplay dist table index (some m) lat lon =
      formatDisplay ((lookupMap m (jsToLower city.name)).getD city.name)
        ((table city.countryCode).getD city.countryCode)) ∧
    (table city.countryCode = none →
      globalDisplay dist table index (some m) lat lon =
        formatDisplay ((lookupMap m (jsToLower city.name)).getD city.name)
          city.countryCode) := by
  have hmain : globalDisplay dist table index (some m) lat lon =
      formatDisplay ((lookupMap m (jsToLower city.name)).getD city.name)
        ((table city.countryCode).getD city.countryCode) := by
    simp only [globalDisplay]
    rw [if_neg hne, hmatch]
    simp only [hcode, if_pos rfl]
    cases hlk : lookupMap m (jsToLower city.name) with
    | none => simp [hlk]
    | some v =>
      have hv : v ≠ "" := hval v hlk
      simp [hlk, hv]
  refine ⟨hmain, fun hnone => ?_⟩
  rw [hmain, hnone]
  rfl

/-- Closed instance of C7: the Moscow gazetteer record is localized through
a one-entry translation map, with an empty country table falling back to the
raw code. -/
theorem C7_localization_of_global_match_witness :
    globalDisplay demoDist emptyTable (buildCityIndex moscowLine)
        (some [("moscow", "Москва")]) (mkRat 5575 100) (mkRat 3761 100) =
      formatDisplay
        ((lookupMap [("moscow", "Москва")]
          (jsToLower "Moscow")).getD "Moscow") "RU" :=
  (C7_localization_of_global_match demoDist emptyTable
    (buildCityIndex moscowLine) [("moscow", "Москва")]
    (mkRat 5575 100) (mkRat 3761 100)
    { name := "Moscow", lat := mkRat 5575222 100000, lon := mkRat 3761556 100000,
      countryCode := "RU", population := 10381222, featureCode := "PPLC" }
    (demoDist (mkRat 5575 100) (mkRat 3761 100)
      (mkRat 5575222 100000) (mkRat 3761556 100000))
    (by decide) (by decide) (by decide)
    (by
      intro v hv
      rw [(by decide : lookupMap [("moscow", "Москва")] (jsToLower "Moscow") =
        some "Москва")] at hv
      injection hv with hv'
      rw [← hv']
      decide)).2 rfl

/-- C8: the translation map contains a key for exactly the source entries
with a non-empty romanized name that are not the sentinel entry `"Донецк"`;
every map entry's key/value pair originates from such an entry. -/
theorem C8_names_map_exact (raw : List RuRawEntry) (k v : String) :
    (lookupMap (buildNamesMap raw) k = some v →
      ∃ c ∈ raw, c.name ≠ "Донецк" ∧ jsTrim (c.english_name.getD "") ≠ "" ∧
        jsToLower (jsTrim (c.english_name.getD "")) = k ∧ v = c.name) ∧
    (∀ c ∈ raw, c.name ≠ "Донецк" → jsTrim (c.english_name.getD "") ≠ "" →
      (lookupMap (buildNamesMap raw)
        (jsToLower (jsTrim (c.english_name.getD "")))).isSome) := by
  constructor
  · intro h
    simp only [buildNamesMap] at h
    rcases lookupMap_foldl_names_sound raw [] k v h with h' | hex
    · exact absurd h' (by simp [lookupMap])
    · exact hex
  · intro c hc h1 h2
    have h3 := lookupMap_foldl_names_complete raw [] c hc h1 h2
    simpa [buildNamesMap] using h3

/-- Closed instance of C8: in the sample dataset the translatable entry is
found, traced back to its source entry. -/
theorem C8_names_map_exact_witness :
    ∃ c ∈ sampleRuRaw, c.name ≠ "Донецк" ∧ jsTrim (c.english_name.getD "") ≠ "" ∧
      jsToLower (jsTrim (c.english_name.getD "")) = "moscow" ∧ "Москва" = c.name :=
  (C8_names_map_exact sampleRuRaw "moscow" "Москва").1 (by decide)

/-- C9: for a fixed dataset snapshot (file system), two successive calls to
`reverseGeocodeDisplay` with the same coordinates deliver the same result —
whether the load succeeds (second call served from the published cache) or
fails (second call re-delivers the settled rejection). -/
theorem C9_repeat_query_deterministic (dist : ℚ → ℚ → ℚ → ℚ → ℚ)
    (table : String → Option String) (fs : FileSystem) (s : EngineState)
    (lat lon : ℚ) :
    (reverseGeocodeDisplayS dist table fs
      (reverseGeocodeDisplayS dist table fs s lat lon).2.1 lat lon).1 =
    (reverseGeocodeDisplayS dist table fs s lat lon).1 := by
  rcases hL : loadCitiesAsyncS fs s with ⟨r, s1, n⟩
  have hst : loadCitiesAsyncS fs s1 = (r, s1, 0) := by
    have h0 := loadCitiesAsyncS_stable fs s
    rw [hL] at h0
    exact h0
  cases r with
  | error e => simp [reverseGeocodeDisplayS, hL, hst]
  | ok idx =>
    cases hc : s1.cityIndex with
    | none => simp [reverseGeocodeDisplayS, hL, hst, hc]
    | some i => simp [reverseGeocodeDisplayS, hL, hst, hc]

/-- C10: when the global strategy produces a match over a loader-built index
and the static table maps no code to the empty string, the display string
always has the full two-part form with non-empty city and country. -/
theorem C10_full_form_display (dist : ℚ → ℚ → ℚ → ℚ → ℚ)
    (table : String → Option String) (content : String)
    (nm : Option (List (String × String))) (lat lon : ℚ) (s : String)
    (htable : ∀ code v, table code = some v → v ≠ "")
    (hdisp : globalDisplay dist table (buildCityIndex content) nm lat lon =
      some s) :
    ∃ cityStr countryStr, cityStr ≠ "" ∧ countryStr ≠ "" ∧
      s = "г. " ++ cityStr ++ ", " ++ countryStr := by
  simp only [globalDisplay] at hdisp
  by_cases hne : (buildCityIndex content).cities.length = 0
  · rw [if_pos hne] at hdisp
    exact absurd hdisp (by simp)
  · rw [if_neg hne] at hdisp
    cases hmatch : globalNearest dist (buildCityIndex content) lat lon with
    | none =>
      rw [hmatch] at hdisp
      exact absurd hdisp (by simp)
    | some p =>
      obtain ⟨city, d⟩ := p
      rw [hmatch] at hdisp
      simp only at hdisp
      have hmem : city ∈ (buildCityIndex content).cities :=
        globalNearest_mem_cities dist (buildCityIndex content) rfl lat lon
          city d hmatch
      obtain ⟨line, hline⟩ := mem_buildCityIndex content city hmem
      obtain ⟨hn, hcc⟩ := parseCityLine_name_country line city hline
      have hcountry : (table city.countryCode).getD city.countryCode ≠ "" := by
        cases ht : table city.countryCode with
        | none => simpa [ht] using hcc
        | some v => simpa [ht] using htable _ v ht
      have main : ∀ D : String, D ≠ "" →
          formatDisplay D ((table city.countryCode).getD city.countryCode) =
            some s →
          ∃ cityStr countryStr, cityStr ≠ "" ∧ countryStr ≠ "" ∧
            s = "г. " ++ cityStr ++ ", " ++ countryStr := by
        intro D hD hfd
        rw [formatDisplay, if_pos ⟨hD, hcountry⟩] at hfd
        injection hfd with h'
        exact ⟨D, (table city.countryCode).getD city.countryCode, hD, hcountry,
          h'.symm⟩
      cases nm with
      | none =>
        simp only at hdisp
        exact main _ hn hdisp
      | some m =>
        simp only at hdisp
        by_cases hru : city.countryCode = "RU"
        · rw [if_pos hru] at hdisp
          cases hlk : lookupMap m (jsToLower city.name) with
          | none =>
            simp only [hlk] at hdisp
            exact main _ hn hdisp
          | some ru =>
            simp only [hlk] at hdisp
            by_cases hre : ru = ""
            · rw [if_pos hre] at hdisp
              exact main _ hn hdisp
            · rw [if_neg hre] at hdisp
              exact main _ hre hdisp
        · rw [if_neg hru] at hdisp
          exact main _ hn hdisp

/-- Closed instance of C10: the Paris record with an empty country table
formats as the full two-part string with the raw code as country. -/
theorem C10_full_form_display_witness :
    ∃ cityStr countryStr, cityStr ≠ "" ∧ countryStr ≠ "" ∧
      "г. Paris, FR" = "г. " ++ cityStr ++ ", " ++ countryStr :=
  C10_full_form_display demoDist emptyTable parisLine none
    (mkRat 4885 100) (mkRat 235 100) "г. Paris, FR"
    (fun code v h => absurd h (by simp [emptyTable]))
    (by decide)

/-- C1 (divergence evidence): with the gazetteer file missing, the first
call returns the file error after 2 file reads and leaves `cityIndex`
unset (never ready); but the second call performs 0 file reads and returns
the same cached rejection — the load is not re-attempted. -/
theorem C1_failed_load_cached_not_retried :
    (reverseGeocodeDisplayS demoDist emptyTable fsMissingCities initialState
        (mkRat 5575 100) (mkRat 3761 100)).1 = .error .citiesFileError ∧
    (reverseGeocodeDisplayS demoDist emptyTable fsMissingCities initialState
        (mkRat 5575 100) (mkRat 3761 100)).2.2 = 2 ∧
    ((reverseGeocodeDisplayS demoDist emptyTable fsMissingCities initialState
        (mkRat 5575 100) (mkRat 3761 100)).2.1).cityIndex = none ∧
    (reverseGeocodeDisplayS demoDist emptyTable fsMissingCities
        ((reverseGeocodeDisplayS demoDist emptyTable fsMissingCities
          initialState (mkRat 5575 100) (mkRat 3761 100)).2.1)
        (mkRat 5575 100) (mkRat 3761 100)).1 = .error .citiesFileError ∧
    (reverseGeocodeDisplayS demoDist emptyTable fsMissingCities
        ((reverseGeocodeDisplayS demoDist emptyTable fsMissingCities
          initialState (mkRat 5575 100) (mkRat 3761 100)).2.1)
        (mkRat 5575 100) (mkRat 3761 100)).2.2 = 0 :=
  ⟨rfl, rfl, rfl, rfl, rfl⟩

end Geocode
